import Mathlib

/-!
Verification of the CB-AuthorPort book-catalog core: a shallow embedding of
the API gateway merge code (apiService) and of the catalog filter engine
(BooksPageManager in navigation.js), together with theorems settling the
spec claims about them.

Modelling conventions, used throughout:
* JS strings are Lean `String`; character-level operations are defined over
  `s.data : List Char` so that everything kernel-reduces on concrete input.
  `toLowerCase` is modelled by `Char.toLower` per character (ASCII folding);
  `trim` drops whitespace at both ends; `includes` is contiguous-sublist
  containment; `localeCompare` is modelled as code-point lexicographic
  comparison of the character lists.
* A JS field that may be `undefined` is an `Option`; JS truthiness is made
  explicit (`0`, `""`, `null`/`undefined` are falsy; arrays, even empty
  ones, are truthy).
* A missing `title` is modelled as `""`: both are falsy and every code path
  treats them identically.
* Network effects are passed in as explicit parameters (a detail-fetch
  oracle, fetch outcomes, the dataset-lookup outcome), so the functions
  under verification are pure.
-/

set_option maxRecDepth 4000

namespace AuthorPort

/-- Per-character lower-casing of a character list (JS `toLowerCase`). -/
def jsLowerL (l : List Char) : List Char := l.map Char.toLower

/-- Whitespace trimming at both ends of a character list (JS `trim`). -/
def jsTrimL (l : List Char) : List Char :=
  ((l.dropWhile Char.isWhitespace).reverse.dropWhile Char.isWhitespace).reverse

/-- JS `toLowerCase` on strings. -/
def jsLower (s : String) : String := String.mk (jsLowerL s.data)

/-- JS `trim` on strings. -/
def jsTrim (s : String) : String := String.mk (jsTrimL s.data)

/-- `leadMatch needle hay` is true when `needle` occurs at the head of `hay`. -/
def leadMatch : List Char → List Char → Bool
  | [], _ => true
  | _ :: _, [] => false
  | a :: as, b :: bs => (a == b) && leadMatch as bs

/-- `containsSub needle hay` is true when `needle` occurs contiguously in `hay`. -/
def containsSub (needle : List Char) : List Char → Bool
  | [] => needle.isEmpty
  | c :: t => leadMatch needle (c :: t) || containsSub needle t

/-- JS `hay.includes(needle)` on strings. -/
def jsIncludes (hay needle : String) : Bool := containsSub needle.data hay.data

/-- The normalized de-duplication key used by the catalog code:
`title.toLowerCase().trim()`. -/
def normTitle (s : String) : String := jsTrim (jsLower s)

/-- JS truthiness of an optional number (`0`, `null`, `undefined` are falsy). -/
def truthyNum : Option Int → Bool
  | some n => n != 0
  | none => false

/-- JS truthiness of an optional string (`""`, `null`, `undefined` are falsy). -/
def truthyStr : Option String → Bool
  | some s => s != ""
  | none => false

/-- JS `a || b` for optional strings: keep `a` when truthy, else `b`. -/
def jsOrStr (a b : Option String) : Option String :=
  if truthyStr a then a else b

/-! ## Catalog filter engine (navigation.js, class BooksPageManager) -/

/-- A raw book record as consumed by `filterBooks`: only the fields the
ingest step reads.  `first_publish_year` is `integer | null` per the data
model; a missing title is modelled as `""`. -/
structure NavBook where
  title : String
  first_publish_year : Option Int
deriving DecidableEq

/-- The exclusion phrase list of `BooksPageManager.isExcludedTitle`. -/
def excludedTerms : List String :=
  ["large print", "audio book", "audiobook", "[microform]", "braille",
   "box set", "boxset", "collection", "complete series", "complete set",
   "books 1-", "books 1 ", "volumes 1-", "hardcover box set",
   "paperback box set", "gift set", "omnibus", "anthology", "collector",
   "special edition set", "deluxe edition set", "library set",
   "school set", "classroom set"]

/-- `BooksPageManager.isExcludedTitle`: the argument is the already
normalized (lower-cased, trimmed) title. -/
def isExcludedTitle (title : String) : Bool :=
  excludedTerms.any (fun term => jsIncludes title term) || decide (title.length ≤ 2)

/-- The first filter stage of `filterBooks`:
`book.title && book.first_publish_year` (both truthy). -/
def keepBook (b : NavBook) : Bool :=
  (b.title != "") && truthyNum b.first_publish_year

/-- The stateful de-duplication filter of `filterBooks`: `seen` is the
`seenTitles` set (already-seen normalized titles).  A title is added to
`seen` before the exclusion check, exactly as in the source. -/
def dedupFilter : List NavBook → List String → List NavBook
  | [], _ => []
  | b :: bs, seen =>
    if seen.contains (normTitle b.title) then dedupFilter bs seen
    else if isExcludedTitle (normTitle b.title) then
      dedupFilter bs (normTitle b.title :: seen)
    else b :: dedupFilter bs (normTitle b.title :: seen)

/-- The sort key on years: `book.first_publish_year || 0`. -/
def yearVal (b : NavBook) : Int := b.first_publish_year.getD 0

/-- The comparator of `filterBooks` as a `le` relation: `a` may precede `b`
iff the comparator value `(yearVal b - yearVal a)`, refined by
title comparison on ties, is `≤ 0`. -/
def bookLe (a b : NavBook) : Bool :=
  decide (yearVal b < yearVal a ∨ (yearVal b = yearVal a ∧ a.title.data ≤ b.title.data))

/-- `BooksPageManager.filterBooks`: keep records with truthy title and year,
de-duplicate by normalized title (first occurrence wins, exclusion list
applied), then stable-sort by year descending, title ascending. -/
def filterBooks (books : List NavBook) : List NavBook :=
  (dedupFilter (books.filter keepBook) []).mergeSort bookLe

/-- The single left-to-right scan of `BooksPageManager.fuzzySearch`: walk the
text once, consuming one query character on every case-matching position;
returns the number of matches. -/
def fuzzyScan : List Char → List Char → Nat
  | [], _ => 0
  | _ :: _, [] => 0
  | q :: qs, c :: ts => if q = c then 1 + fuzzyScan qs ts else fuzzyScan (q :: qs) ts

/-- `BooksPageManager.fuzzySearch`.  The JS threshold test
`matches / query.length >= 0.7` is modelled exactly by
`7 * query.length ≤ 10 * matches` (for any feasible string length the
floating-point comparison agrees with the rational one). -/
def fuzzySearch (query text : String) : Bool :=
  if query = "" || text = "" then false
  else
    let q := jsLowerL query.data
    let t := jsLowerL text.data
    if containsSub q t then true
    else decide (7 * q.length ≤ 10 * fuzzyScan q t)

/-- The spec-side description of the scan: for each query character in
order, advance a cursor through the text until a matching character is
found, counting a hit; characters left when the text is exhausted score
nothing. -/
def subseqHits : List Char → List Char → Nat
  | [], _ => 0
  | q :: qs, t =>
    match t.dropWhile (fun c => c != q) with
    | [] => 0
    | _ :: rest => 1 + subseqHits qs rest

/-- `BooksPageManager.capitalizeFirst`:
`str.charAt(0).toUpperCase() + str.slice(1).toLowerCase()`. -/
def capitalizeFirst (s : String) : String :=
  match s.data with
  | [] => ""
  | c :: rest => String.mk (c.toUpper :: jsLowerL rest)

/-- The ordered keyword → category table of `BooksPageManager.categorizeGenre`
(JS object literals iterate string keys in insertion order). -/
def genreMapping : List (String × String) :=
  [("fantasy", "Fantasy"),
   ("magic", "Fantasy"),
   ("wizards", "Fantasy"),
   ("witches", "Fantasy"),
   ("magical", "Fantasy"),
   ("supernatural", "Fantasy"),
   ("mythology", "Fantasy & Mythology"),
   ("fairy tales", "Fantasy & Fairy Tales"),
   ("detective", "Mystery & Detective"),
   ("mystery", "Mystery & Detective"),
   ("crime", "Crime & Mystery"),
   ("thriller", "Thriller"),
   ("suspense", "Suspense"),
   ("police", "Crime & Detective"),
   ("fiction", "Fiction"),
   ("literary fiction", "Literary Fiction"),
   ("contemporary fiction", "Contemporary Fiction"),
   ("historical fiction", "Historical Fiction"),
   ("adventure", "Adventure Fiction"),
   ("romance", "Romance"),
   ("children", "Children\u0027s Literature"),
   ("young adult", "Young Adult Fiction"),
   ("teen", "Young Adult Fiction"),
   ("juvenile fiction", "Children\u0027s Fiction"),
   ("biography", "Biography & Memoir"),
   ("autobiography", "Biography & Memoir"),
   ("memoir", "Biography & Memoir"),
   ("biography & autobiography", "Biography & Memoir"),
   ("philosophy", "Philosophy"),
   ("psychology", "Psychology"),
   ("politics", "Politics & Government"),
   ("history", "History"),
   ("science", "Science"),
   ("education", "Education"),
   ("social", "Social Issues"),
   ("sociology", "Social Sciences"),
   ("friendship", "Friendship & Relationships"),
   ("coming of age", "Coming of Age"),
   ("school", "School Stories"),
   ("boarding school", "School Stories"),
   ("orphans", "Family & Social Issues"),
   ("families", "Family Stories"),
   ("london", "British Literature"),
   ("england", "British Literature"),
   ("british", "British Literature"),
   ("scotland", "Scottish Literature"),
   ("film", "Film Adaptations"),
   ("movie", "Film Adaptations"),
   ("television", "TV Adaptations"),
   ("adaptation", "Adaptations"),
   ("authorship", "Writing & Publishing"),
   ("literary criticism", "Literary Criticism"),
   ("book clubs", "Reading & Book Culture")]

/-- Exact-key lookup in the ordered mapping (JS `genreMapping[lowerSubject]`). -/
def lookupExact : List (String × String) → String → Option String
  | [], _ => none
  | (k, v) :: rest, s => if k = s then some v else lookupExact rest s

/-- First key that occurs in the subject as a substring (the partial-match
loop, table order breaking ties). -/
def lookupPartial : List (String × String) → String → Option String
  | [], _ => none
  | (k, v) :: rest, s => if jsIncludes s k then some v else lookupPartial rest s

/-- JS `split(' and ')` on a character list: leftmost, non-overlapping. -/
def splitAnd : List Char → List (List Char)
  | [] => [[]]
  | ' ' :: 'a' :: 'n' :: 'd' :: ' ' :: rest => [] :: splitAnd rest
  | c :: rest =>
    match splitAnd rest with
    | [] => [[c]]
    | part :: parts => (c :: part) :: parts

/-- First trimmed part of a split that has an exact mapping entry (the
compound-subject handling of `categorizeGenre`). -/
def firstExact : List (List Char) → Option String
  | [] => none
  | part :: parts =>
    match lookupExact genreMapping (jsTrim (String.mk part)) with
    | some v => some v
    | none => firstExact parts

/-- The `' and '` compound-subject retry of `categorizeGenre`. -/
def andSplitLookup (s : String) : Option String :=
  if jsIncludes s " and " then firstExact (splitAnd s.data) else none

/-- Remove the first occurrence of `pat` from a character list
(JS `replace(pat, '')` with a string pattern). -/
def dropAfterMatch (pat : List Char) : List Char → List Char
  | [] => []
  | c :: t => if leadMatch pat (c :: t) then (c :: t).drop pat.length else c :: dropAfterMatch pat t

/-- JS `split(' ')` (single-space separator, empty parts kept). -/
def splitSpace : List Char → List (List Char)
  | [] => [[]]
  | ' ' :: rest => [] :: splitSpace rest
  | c :: rest =>
    match splitSpace rest with
    | [] => [[c]]
    | part :: parts => (c :: part) :: parts

/-- JS `join(' ')` on character-list parts. -/
def joinSpaceL : List (List Char) → List Char
  | [] => []
  | [p] => p
  | p :: rest => p ++ ' ' :: joinSpaceL rest

/-- Helper for `collapseWs`: the flag records whether the previous kept
character position was inside a whitespace run. -/
def collapseWsAux : Bool → List Char → List Char
  | _, [] => []
  | prevWs, c :: t =>
    if c.isWhitespace then
      if prevWs then collapseWsAux true t else ' ' :: collapseWsAux true t
    else c :: collapseWsAux false t

/-- JS global `replace(/\s+/g, ' ')`: collapse each whitespace run to one
space. -/
def collapseWs (l : List Char) : List Char := collapseWsAux false l

/-- True when the string starts with a decimal digit (JS `match(/^\d+/)`). -/
def startsWithDigit (s : String) : Bool :=
  match s.data with
  | c :: _ => c.isDigit
  | [] => false

/-- `BooksPageManager.categorizeGenre`: reject technical subjects, then try
exact table lookup, substring lookup, compound `' and '` split,
`' in literature'` reformatting, and finally title-casing of short plain
subjects. -/
def categorizeGenre (subject : String) : Option String :=
  if subject = "" then none
  else
    let lowerSubject := jsTrim (jsLower subject)
    if decide (60 < lowerSubject.length) || jsIncludes lowerSubject "--" ||
       jsIncludes lowerSubject "(" || jsIncludes lowerSubject "juvenile" ||
       jsIncludes lowerSubject "accessible book" ||
       jsIncludes lowerSubject "large type books" ||
       jsIncludes lowerSubject "readers" || jsIncludes lowerSubject "grade" ||
       startsWithDigit lowerSubject || jsIncludes lowerSubject "bibliography" ||
       jsIncludes lowerSubject "indexes" then none
    else
      match lookupExact genreMapping lowerSubject with
      | some v => some v
      | none =>
        match lookupPartial genreMapping lowerSubject with
        | some v => some v
        | none =>
          match andSplitLookup lowerSubject with
          | some v => some v
          | none =>
            if jsIncludes lowerSubject " in literature" then
              some (capitalizeFirst (jsTrim (String.mk (dropAfterMatch " in literature".data lowerSubject.data))) ++ " in Literature")
            else if decide (subject.length ≤ 40) && !(jsIncludes lowerSubject "/") &&
                !(jsIncludes lowerSubject ",") then
              some (jsTrim (String.mk (collapseWs (joinSpaceL ((splitSpace subject.data).map (fun w => (capitalizeFirst (String.mk w)).data))))))
            else none

/-! ## API gateway (apiService, src/unnamed/part_001) -/

/-- An Open Library `description` value: either a bare string or a typed
object carrying the text in its `value` field. -/
inductive JDesc where
  | str (s : String)
  | obj (value : String)
deriving DecidableEq

/-- The dynamic value ending up in the merged `first_publish_year` field: a
number (search data) or a date string (work data). -/
inductive YearVal where
  | num (n : Int)
  | str (s : String)
deriving DecidableEq

/-- A raw work from the works-by-author endpoint, restricted to the fields
the merge code reads.  A missing title is modelled as `""`. -/
structure Work where
  title : String
  key : Option String
  covers : Option (List Int)
  first_publish_date : Option String
  description : Option JDesc
  subtitle : Option String
deriving DecidableEq

/-- A raw document from the search endpoint, restricted to the fields the
merge code reads.  A missing title is modelled as `""`. -/
structure SearchHit where
  title : String
  key : Option String
  cover_i : Option Int
  first_publish_year : Option Int
  first_publish_date : Option String
  language : Option (List String)
  publisher : Option (List String)
  isbn : Option (List String)
  subject : Option (List String)
  edition_count : Option Int
  author_key : Option (List String)
  author_name : Option (List String)
deriving DecidableEq

/-- A work-detail record from the per-work endpoint, restricted to the
fields the merge code reads.  The source field `dewey_decimal_class` is
spelt `dewey_decimal_classes` here. -/
structure DetailedWork where
  description : Option JDesc
  subjects : Option (List String)
  subtitle : Option String
  dewey_decimal_classes : Option (List String)
  lc_classifications : Option (List String)
deriving DecidableEq

/-- The merged record built by `enhanceBookData`.  Fields that the search
hit spread path can leave absent are `Option`s; the source field
`dewey_decimal_class` is spelt `dewey_decimal_classes` here. -/
structure EnhancedBook where
  title : String
  key : Option String
  covers : List Int
  cover_i : Option Int
  first_publish_year : Option YearVal
  first_publish_date : Option String
  language : Option (List String)
  publisher : Option (List String)
  isbn : Option (List String)
  subject : Option (List String)
  edition_count : Option Int
  author_key : List String
  author_name : List String
  description : Option JDesc
  subtitle : Option String
  dewey_decimal_classes : Option (List String)
  lc_classifications : Option (List String)
deriving DecidableEq

/-- The description precedence of the merge:
`detailedWork?.description?.value || detailedWork?.description || work.description`,
with JS truthiness (a string `.value` access is `undefined`; an object is
always truthy, the empty string is not). -/
def descPrecedence (d w : Option JDesc) : Option JDesc :=
  match d with
  | some (.obj v) => if v = "" then some (.obj v) else some (.str v)
  | some (.str s) => if s = "" then w else some (.str s)
  | none => w

/-- The object literal at the heart of `enhanceBookData` (the per-work
enhanced record), combining the bare work, its matching search hit (if
any) and its fetched detail record (if any). -/
def buildEnhanced (work : Work) (searchMatch : Option SearchHit)
    (detailedWork : Option DetailedWork) : EnhancedBook :=
  { title := work.title
    key := work.key
    covers := work.covers.getD []
    cover_i :=
      if truthyNum (searchMatch.bind (·.cover_i)) then searchMatch.bind (·.cover_i)
      else work.covers.bind List.head?
    first_publish_year :=
      if truthyNum (searchMatch.bind (·.first_publish_year)) then
        (searchMatch.bind (·.first_publish_year)).map .num
      else work.first_publish_date.map .str
    first_publish_date :=
      jsOrStr work.first_publish_date (searchMatch.bind (·.first_publish_date))
    language := some ((searchMatch.bind (·.language)).getD [])
    publisher := some ((searchMatch.bind (·.publisher)).getD [])
    isbn := some ((searchMatch.bind (·.isbn)).getD [])
    subject :=
      some (match searchMatch.bind (·.subject) with
        | some l => l
        | none => (detailedWork.bind (·.subjects)).getD [])
    edition_count :=
      some (match searchMatch.bind (·.edition_count) with
        | some n => if n = 0 then 1 else n
        | none => 1)
    author_key := (searchMatch.bind (·.author_key)).getD ["OL23919A"]
    author_name := (searchMatch.bind (·.author_name)).getD ["J.K. Rowling"]
    description := descPrecedence (detailedWork.bind (·.description)) work.description
    subtitle := jsOrStr (detailedWork.bind (·.subtitle)) work.subtitle
    dewey_decimal_classes := some ((detailedWork.bind (·.dewey_decimal_classes)).getD [])
    lc_classifications := some ((detailedWork.bind (·.lc_classifications)).getD []) }

/-- The spread reshaping `{...searchBook, key, covers, author_key,
author_name}` applied to each leftover search hit. -/
def searchHitBook (s : SearchHit) : EnhancedBook :=
  { title := s.title
    key := if truthyStr s.key then s.key else none
    covers :=
      match s.cover_i with
      | some c => if c = 0 then [] else [c]
      | none => []
    cover_i := s.cover_i
    first_publish_year := s.first_publish_year.map .num
    first_publish_date := s.first_publish_date
    language := s.language
    publisher := s.publisher
    isbn := s.isbn
    subject := s.subject
    edition_count := s.edition_count
    author_key := s.author_key.getD ["OL23919A"]
    author_name := s.author_name.getD ["J.K. Rowling"]
    description := none
    subtitle := none
    dewey_decimal_classes := none
    lc_classifications := none }

/-- The `searchBooksMap` lookup: the map is keyed by
`title.toLowerCase().trim()` and `Map.set` makes the last hit with a given
key win; lookups use the raw key handed in. -/
def searchMap (searchBooks : List SearchHit) (key : String) : Option SearchHit :=
  (searchBooks.filter (fun b => (b.title != "") && (normTitle b.title == key))).getLast?

/-- The works loop of `enhanceBookData`: skips works with falsy or
already-processed titles (lower-cased, not trimmed), looks up the search
match, consults the detail-fetch oracle when the work has a truthy key,
and emits the enhanced record.  Returns the records together with the
final `processedTitles` set. -/
def enhanceLoop (fetch : String → Option DetailedWork) (searchBooks : List SearchHit) :
    List Work → List String → List EnhancedBook × List String
  | [], processed => ([], processed)
  | w :: ws, processed =>
    if w.title = "" then enhanceLoop fetch searchBooks ws processed
    else if processed.contains (jsLower w.title) then enhanceLoop fetch searchBooks ws processed
    else
      let searchMatch := searchMap searchBooks (jsLower w.title)
      let detailedWork := match w.key with
        | some k => if k = "" then none else fetch k
        | none => none
      let rest := enhanceLoop fetch searchBooks ws (jsLower w.title :: processed)
      (buildEnhanced w searchMatch detailedWork :: rest.1, rest.2)

/-- The final pass of `enhanceBookData`: append every search hit whose
lower-cased title has not been processed, marking it processed. -/
def addLeftoverHits (processed : List String) : List SearchHit → List EnhancedBook
  | [] => []
  | s :: ss =>
    if (s.title != "") && !(processed.contains (jsLower s.title)) then
      searchHitBook s :: addLeftoverHits (jsLower s.title :: processed) ss
    else addLeftoverHits processed ss

/-- `enhanceBookData`: merge works and search hits into enhanced records.
The per-work detail fetch is the oracle `fetch` (`none` models a failed,
timed-out or non-2xx request). -/
def enhanceBookData (fetch : String → Option DetailedWork)
    (works : List Work) (searchBooks : List SearchHit) : List EnhancedBook :=
  (enhanceLoop fetch searchBooks works []).1 ++
    addLeftoverHits (enhanceLoop fetch searchBooks works []).2 searchBooks

/-- JS `subjects.join(' ')`. -/
def joinSpace : List String → String
  | [] => ""
  | [s] => s
  | s :: rest => s ++ " " ++ joinSpace rest

/-- `getFallbackDescription`: the deterministic rule cascade keyed on title
keywords and subject tags. -/
def getFallbackDescription (book : EnhancedBook) : String :=
  let title := jsLower book.title
  let subjectStr := jsLower (joinSpace (book.subject.getD []))
  if jsIncludes title "harry potter" then
    if jsIncludes title "philosopher" || jsIncludes title "sorcerer" then
      "The magical journey begins as young Harry Potter discovers his true identity and enters the enchanting world of Hogwarts School of Witchcraft and Wizardry."
    else if jsIncludes title "chamber" then
      "Harry returns to Hogwarts for his second year, where ancient secrets and a mysterious monster threaten the school."
    else if jsIncludes title "prisoner" then
      "Harry\u0027s third year brings new revelations about his past and the escape of a dangerous prisoner from Azkaban."
    else if jsIncludes title "goblet" then
      "Harry faces his most dangerous challenges yet as he competes in the legendary Triwizard Tournament."
    else if jsIncludes title "phoenix" then
      "As Voldemort returns to power, Harry must unite his friends and form a secret organization to fight against the darkness."
    else if jsIncludes title "prince" then
      "Harry delves into Voldemort\u0027s dark past while preparing for the ultimate confrontation between good and evil."
    else if jsIncludes title "hallows" then
      "The epic conclusion to Harry\u0027s journey as he faces his destiny and the final battle against Voldemort."
    else
      "Join Harry Potter on an unforgettable magical adventure filled with friendship, courage, and the triumph of good over evil."
  else if jsIncludes title "strike" || jsIncludes title "cuckoo" ||
      jsIncludes title "silkworm" || jsIncludes title "evil" ||
      jsIncludes title "white" || jsIncludes title "blood" ||
      jsIncludes title "heart" || jsIncludes title "grave" then
    "Follow private detective Cormoran Strike as he unravels complex mysteries in this gripping crime series that showcases Rowling\u0027s masterful storytelling beyond the wizarding world."
  else if jsIncludes title "casual vacancy" then
    "A darkly comic and deeply moving novel that explores the hidden tensions and conflicts within a seemingly idyllic English town."
  else if jsIncludes title "fantastic beasts" then
    "Explore the magical world of fantastic creatures in this enchanting companion to the Harry Potter universe."
  else if jsIncludes subjectStr "fantasy" || jsIncludes subjectStr "magic" then
    "A spellbinding fantasy tale that transports readers to a world of magic, adventure, and unforgettable characters created by the masterful J.K. Rowling."
  else if jsIncludes subjectStr "mystery" || jsIncludes subjectStr "crime" then
    "A compelling mystery that weaves together intricate plotlines and complex characters in J.K. Rowling\u0027s signature storytelling style."
  else if jsIncludes subjectStr "young adult" || jsIncludes subjectStr "children" then
    "An engaging tale that captures the imagination of readers young and old with its rich storytelling and memorable characters."
  else
    "A captivating work by J.K. Rowling that demonstrates her exceptional ability to craft compelling stories with depth, emotion, and unforgettable characters."

/-- `generateBookDescription`: try the Goodreads dataset lookup (whose
outcome, including a hypothetical exception, is the explicit argument);
a truthy result is returned verbatim, anything else falls through to the
deterministic fallback.  The Lean function is total: it always returns a
string, embedding the never-throws contract. -/
def generateBookDescription (goodreadsResult : Except Unit (Option String))
    (book : EnhancedBook) : String :=
  match goodreadsResult with
  | .ok (some d) => if d = "" then getFallbackDescription book else d
  | .ok none => getFallbackDescription book
  | .error _ => getFallbackDescription book

/-- Outcome of one `cachedFetch` call: a response with its `ok` flag and
parsed data, or a thrown network error. -/
inductive FetchOutcome (α : Type) where
  | success (ok : Bool) (data : α)
  | threw
deriving DecidableEq

/-- What `fetchDetailedJKRowlingBooks` puts in its `books` field: the
enhanced records, or the raw search docs when degraded. -/
inductive BooksResult where
  | enhanced (books : List EnhancedBook)
  | raw (docs : List SearchHit)
deriving DecidableEq

/-- The `{books, total}` result shape of `fetchDetailedJKRowlingBooks`. -/
structure CatalogResult where
  books : BooksResult
  total : Nat
deriving DecidableEq

/-- `fetchDetailedJKRowlingBooks`: the combined works+search fetch with its
cascade of fallbacks.  The two primary fetch outcomes, the outcome of the
`enhanceBookData` call (which can throw on malformed dynamic data) and the
outcome of the fallback search fetch are explicit arguments; `data` is the
optional `entries` / `docs` array of the parsed JSON.  An `ok` response
whose array is absent degrades to `[]` (`searchData.docs || []`); the
fallback path reads `docs` without checking `ok`; a thrown fallback fetch
propagates as the error. -/
def fetchDetailedJKRowlingBooks
    (worksFetch : FetchOutcome (Option (List Work)))
    (searchFetch : FetchOutcome (Option (List SearchHit)))
    (enhanceOutcome : Except Unit (List EnhancedBook))
    (fallbackFetch : FetchOutcome (Option (List SearchHit))) :
    Except Unit CatalogResult :=
  match worksFetch, searchFetch with
  | .success true _, .success true docsO =>
    match enhanceOutcome with
    | .ok bs => .ok ⟨.enhanced bs, bs.length⟩
    | .error _ => .ok ⟨.raw (docsO.getD []), (docsO.getD []).length⟩
  | _, _ =>
    match fallbackFetch with
    | .success _ docsO => .ok ⟨.raw (docsO.getD []), (docsO.getD []).length⟩
    | .threw => .error ()

/-- True when both primary responses arrived and were `ok` (the guard of
the non-degraded path of `fetchDetailedJKRowlingBooks`). -/
def combinedFetchOk : FetchOutcome (Option (List Work)) →
    FetchOutcome (Option (List SearchHit)) → Bool
  | .success true _, .success true _ => true
  | _, _ => false

/-! ## Concrete sample data used by counterexamples and witnesses -/

/-- A detail-fetch oracle on which every per-work detail request fails. -/
def noFetch : String → Option DetailedWork := fun _ => none

/-- A bare work titled `"A"` whose `first_publish_date` is `"1990"`. -/
def cWork : Work :=
  { title := "A", key := none, covers := none,
    first_publish_date := some "1990", description := none, subtitle := none }

/-- A search hit titled `"A "` (trailing space) whose `first_publish_date`
is `"2000"`; the map key `normTitle "A "` equals `normTitle "A"`. -/
def cHit : SearchHit :=
  { title := "A ", key := none, cover_i := none, first_publish_year := none,
    first_publish_date := some "2000", language := none, publisher := none,
    isbn := none, subject := none, edition_count := none,
    author_key := none, author_name := none }

/-- A detail record with every field absent. -/
def cDetail : DetailedWork :=
  { description := none, subjects := none, subtitle := none,
    dewey_decimal_classes := none, lc_classifications := none }

/-- A merged record built from `cWork` alone. -/
def cBook : EnhancedBook := buildEnhanced cWork none none

/-- A work with every field populated, for the precedence witness. -/
def wWork : Work :=
  { title := "B", key := some "/works/OL1W", covers := some [7, 8],
    first_publish_date := some "1998", description := some (.str "workdesc"),
    subtitle := some "worksub" }

/-- A search hit with every field populated, for the precedence witness. -/
def wHit : SearchHit :=
  { title := "B", key := some "/works/OL1W", cover_i := some 5,
    first_publish_year := some 1999, first_publish_date := some "1999-07-08",
    language := some ["eng"], publisher := some ["Bloomsbury"],
    isbn := some ["9780747532743"], subject := some ["Fantasy"],
    edition_count := some 3, author_key := some ["OL23919A"],
    author_name := some ["J.K. Rowling"] }

/-- A detail record with every field populated, for the precedence witness. -/
def wDetail : DetailedWork :=
  { description := some (.obj "detaildesc"), subjects := some ["Magic"],
    subtitle := some "detailsub", dewey_decimal_classes := some ["823.914"],
    lc_classifications := some ["PR6068.O93"] }

/-- First of two raw records whose titles differ only by case. -/
def cDup1 : NavBook := { title := "Harry Potter", first_publish_year := some 1997 }

/-- Second of two raw records whose titles differ only by case. -/
def cDup2 : NavBook := { title := "HARRY POTTER", first_publish_year := some 1997 }

/-! ## Helper lemmas -/

/-- Dropping a prefix never lengthens a list. -/
theorem length_dropWhile_le {α : Type} (p : α → Bool) (l : List α) :
    (l.dropWhile p).length ≤ l.length := by
  induction l with
  | nil => simp [List.dropWhile]
  | cons a t ih =>
    by_cases h : p a <;> simp [List.dropWhile_cons, h] <;> omega

/-- Normalization (lower-casing then trimming) never lengthens a title. -/
theorem normTitle_length_le (s : String) : (normTitle s).length ≤ s.length := by
  show (jsTrimL (jsLowerL s.data)).length ≤ s.data.length
  have h1 : (jsTrimL (jsLowerL s.data)).length ≤ (jsLowerL s.data).length := by
    unfold jsTrimL
    calc (((jsLowerL s.data).dropWhile Char.isWhitespace).reverse.dropWhile Char.isWhitespace).reverse.length
        = (((jsLowerL s.data).dropWhile Char.isWhitespace).reverse.dropWhile Char.isWhitespace).length := by
          rw [List.length_reverse]
      _ ≤ ((jsLowerL s.data).dropWhile Char.isWhitespace).reverse.length :=
          length_dropWhile_le _ _
      _ = ((jsLowerL s.data).dropWhile Char.isWhitespace).length := by
          rw [List.length_reverse]
      _ ≤ (jsLowerL s.data).length := length_dropWhile_le _ _
  simpa [jsLowerL] using h1

/-- Every record emitted by the de-duplication pass has a key outside the
incoming `seen` set. -/
theorem dedupFilter_key_not_seen {l : List NavBook} {seen : List String} {b : NavBook}
    (h : b ∈ dedupFilter l seen) : normTitle b.title ∉ seen := by
  induction l generalizing seen with
  | nil => simp [dedupFilter] at h
  | cons a t ih =>
    rw [dedupFilter] at h
    by_cases h1 : seen.contains (normTitle a.title)
    · rw [if_pos h1] at h
      exact ih h
    · rw [if_neg h1] at h
      by_cases h2 : isExcludedTitle (normTitle a.title)
      · rw [if_pos h2] at h
        have := ih h
        intro hmem
        exact this (List.mem_cons_of_mem _ hmem)
      · rw [if_neg h2] at h
        rcases List.mem_cons.1 h with rfl | hmem
        · intro hmem
          exact h1 (List.elem_eq_true_of_mem hmem)
        · have := ih hmem
          intro hseen
          exact this (List.mem_cons_of_mem _ hseen)

/-- Every record emitted by the de-duplication pass occurs in the input and
survives the exclusion check. -/
theorem dedupFilter_mem {l : List NavBook} {seen : List String} {b : NavBook}
    (h : b ∈ dedupFilter l seen) :
    b ∈ l ∧ isExcludedTitle (normTitle b.title) = false := by
  induction l generalizing seen with
  | nil => simp [dedupFilter] at h
  | cons a t ih =>
    rw [dedupFilter] at h
    by_cases h1 : seen.contains (normTitle a.title)
    · rw [if_pos h1] at h
      obtain ⟨hm, he⟩ := ih h
      exact ⟨List.mem_cons_of_mem _ hm, he⟩
    · rw [if_neg h1] at h
      by_cases h2 : isExcludedTitle (normTitle a.title)
      · rw [if_pos h2] at h
        obtain ⟨hm, he⟩ := ih h
        exact ⟨List.mem_cons_of_mem _ hm, he⟩
      · rw [if_neg h2] at h
        rcases List.mem_cons.1 h with rfl | hmem
        · exact ⟨List.mem_cons_self _ _, by simpa using h2⟩
        · obtain ⟨hm, he⟩ := ih hmem
          exact ⟨List.mem_cons_of_mem _ hm, he⟩

/-- The de-duplication pass emits pairwise distinct normalized titles. -/
theorem dedupFilter_pairwise (l : List NavBook) (seen : List String) :
    List.Pairwise (fun a b => normTitle a.title ≠ normTitle b.title)
      (dedupFilter l seen) := by
  induction l generalizing seen with
  | nil => simp [dedupFilter]
  | cons a t ih =>
    rw [dedupFilter]
    by_cases h1 : seen.contains (normTitle a.title)
    · rw [if_pos h1]
      exact ih seen
    · rw [if_neg h1]
      by_cases h2 : isExcludedTitle (normTitle a.title)
      · rw [if_pos h2]
        exact ih _
      · rw [if_neg h2]
        refine List.Pairwise.cons ?_ (ih _)
        intro c hc heq
        have := dedupFilter_key_not_seen hc
        exact this (heq ▸ List.mem_cons_self _ _)

/-- The `filterBooks` comparator is transitive. -/
theorem bookLe_trans (a b c : NavBook) (h1 : bookLe a b = true)
    (h2 : bookLe b c = true) : bookLe a c = true := by
  simp only [bookLe, decide_eq_true_eq] at h1 h2 ⊢
  rcases h1 with hy1 | ⟨he1, ht1⟩
  · rcases h2 with hy2 | ⟨he2, ht2⟩
    · exact Or.inl (lt_trans hy2 hy1)
    · exact Or.inl (he2 ▸ hy1)
  · rcases h2 with hy2 | ⟨he2, ht2⟩
    · exact Or.inl (he1 ▸ hy2)
    · exact Or.inr ⟨he2.trans he1, le_trans ht1 ht2⟩

/-- The `filterBooks` comparator is total. -/
theorem bookLe_total (a b : NavBook) : (bookLe a b || bookLe b a) = true := by
  simp only [bookLe, Bool.or_eq_true, decide_eq_true_eq]
  rcases lt_trichotomy (yearVal a) (yearVal b) with h | h | h
  · exact Or.inr (Or.inl h)
  · rcases le_total a.title.data b.title.data with ht | ht
    · exact Or.inl (Or.inr ⟨h.symm, ht⟩)
    · exact Or.inr (Or.inr ⟨h, ht⟩)
  · exact Or.inl (Or.inl h)

/-- The imperative two-cursor scan computes exactly the advance-until-match
hit count of the specification. -/
theorem fuzzyScan_eq_subseqHits : ∀ (t q : List Char), fuzzyScan q t = subseqHits q t := by
  intro t
  induction t with
  | nil =>
    intro q
    cases q <;> simp [fuzzyScan, subseqHits]
  | cons c ts ih =>
    intro q
    cases q with
    | nil => simp [fuzzyScan, subseqHits]
    | cons qh qs =>
      by_cases h : qh = c
      · subst h
        simp [fuzzyScan, subseqHits, List.dropWhile_cons, ih qs]
      · have hne : (c != qh) = true := by simp [bne_iff_ne]; exact fun e => h e.symm
        simp only [fuzzyScan, if_neg h, subseqHits, List.dropWhile_cons, hne, if_pos]
        rw [ih (qh :: qs)]
        simp [subseqHits]

/-- The processed-title set of the merge loop only grows. -/
theorem enhanceLoop_processed_mono {f : String → Option DetailedWork}
    {sb : List SearchHit} {ws : List Work} {p : List String} {x : String}
    (h : x ∈ p) : x ∈ (enhanceLoop f sb ws p).2 := by
  induction ws generalizing p with
  | nil => simpa [enhanceLoop] using h
  | cons w rest ih =>
    rw [enhanceLoop]
    by_cases h1 : w.title = ""
    · rw [if_pos h1]
      exact ih h
    · rw [if_neg h1]
      by_cases h2 : p.contains (jsLower w.title)
      · rw [if_pos h2]
        exact ih h
      · rw [if_neg h2]
        exact ih (List.mem_cons_of_mem _ h)

/-- Every record the merge loop emits carries a lower-cased title that ends
up processed and was not processed on entry. -/
theorem enhanceLoop_mem_key {f : String → Option DetailedWork}
    {sb : List SearchHit} {ws : List Work} {p : List String} {b : EnhancedBook}
    (h : b ∈ (enhanceLoop f sb ws p).1) :
    jsLower b.title ∈ (enhanceLoop f sb ws p).2 ∧ jsLower b.title ∉ p := by
  induction ws generalizing p with
  | nil => simp [enhanceLoop] at h
  | cons w rest ih =>
    rw [enhanceLoop] at h ⊢
    by_cases h1 : w.title = ""
    · rw [if_pos h1] at h ⊢
      exact ih h
    · rw [if_neg h1] at h ⊢
      by_cases h2 : p.contains (jsLower w.title)
      · rw [if_pos h2] at h ⊢
        exact ih h
      · rw [if_neg h2] at h ⊢
        rcases List.mem_cons.1 h with rfl | hmem
        · constructor
          · exact enhanceLoop_processed_mono (List.mem_cons_self _ _)
          · intro hp
            exact h2 (List.elem_eq_true_of_mem (by simpa [buildEnhanced] using hp))
        · obtain ⟨hin, hout⟩ := ih hmem
          exact ⟨hin, fun hp => hout (List.mem_cons_of_mem _ hp)⟩

/-- The merge loop emits pairwise distinct lower-cased titles. -/
theorem enhanceLoop_pairwise (f : String → Option DetailedWork)
    (sb : List SearchHit) (ws : List Work) (p : List String) :
    List.Pairwise (fun a b : EnhancedBook => jsLower a.title ≠ jsLower b.title)
      (enhanceLoop f sb ws p).1 := by
  induction ws generalizing p with
  | nil => simp [enhanceLoop]
  | cons w rest ih =>
    rw [enhanceLoop]
    by_cases h1 : w.title = ""
    · rw [if_pos h1]
      exact ih p
    · rw [if_neg h1]
      by_cases h2 : p.contains (jsLower w.title)
      · rw [if_pos h2]
        exact ih p
      · rw [if_neg h2]
        refine List.Pairwise.cons ?_ (ih _)
        intro c hc heq
        have := (enhanceLoop_mem_key hc).2
        refine this ?_
        rw [← heq]
        simpa [buildEnhanced] using List.mem_cons_self (jsLower w.title) p

/-- Every search hit appended by the final pass carries a lower-cased title
outside the processed set it was checked against. -/
theorem addLeftoverHits_key_not_seen {p : List String} {ss : List SearchHit}
    {b : EnhancedBook} (h : b ∈ addLeftoverHits p ss) : jsLower b.title ∉ p := by
  induction ss generalizing p with
  | nil => simp [addLeftoverHits] at h
  | cons s rest ih =>
    rw [addLeftoverHits] at h
    by_cases h1 : (s.title != "") && !(p.contains (jsLower s.title))
    · rw [if_pos h1] at h
      rcases List.mem_cons.1 h with rfl | hmem
      · intro hp
        simp at h1
        exact h1.2 (by simpa [searchHitBook] using hp)
      · have := ih hmem
        intro hp
        exact this (List.mem_cons_of_mem _ hp)
    · rw [if_neg h1] at h
      exact ih h

/-- The final pass appends pairwise distinct lower-cased titles. -/
theorem addLeftoverHits_pairwise (p : List String) (ss : List SearchHit) :
    List.Pairwise (fun a b : EnhancedBook => jsLower a.title ≠ jsLower b.title)
      (addLeftoverHits p ss) := by
  induction ss generalizing p with
  | nil => simp [addLeftoverHits]
  | cons s rest ih =>
    rw [addLeftoverHits]
    by_cases h1 : (s.title != "") && !(p.contains (jsLower s.title))
    · rw [if_pos h1]
      refine List.Pairwise.cons ?_ (ih _)
      intro c hc heq
      have := addLeftoverHits_key_not_seen hc
      refine this ?_
      rw [← heq]
      simpa [searchHitBook] using List.mem_cons_self (jsLower s.title) p
    · rw [if_neg h1]
      exact ih p

/-! ## Claims -/

/-- Claim C1, counterexample.  The claim states that every merged field
prefers search-hit data first; for `first_publish_date` the code computes
`work.first_publish_date || searchMatch?.first_publish_date`, so with a
work dated `"1990"` and a matching hit dated `"2000"` the merged record
keeps the work value and not the search-hit value. -/
theorem c1_counterexample :
    ¬ ((buildEnhanced cWork (some cHit) (some cDetail)).first_publish_date
        = cHit.first_publish_date) ∧
    (buildEnhanced cWork (some cHit) (some cDetail)).first_publish_date
      = cWork.first_publish_date := by
  exact ⟨by decide, by decide⟩

/-- Claim C1 (amended): for a work with a matching search hit and a fetched
work-detail record, the merged fields follow the search-hit > work-detail >
bare-work precedence for cover id, first publish year, languages,
publishers, isbns, subjects, description and subtitle (the three list
fields fall back to the empty list; description and subtitle never read
search data because search hits carry none), while `first_publish_date`
instead takes the bare-work date first and the search-hit date second. -/
theorem c1_field_precedence (w : Work) (s : SearchHit) (d : DetailedWork) :
    ((truthyNum s.cover_i = true →
        (buildEnhanced w (some s) (some d)).cover_i = s.cover_i) ∧
     (truthyNum s.cover_i = false →
        (buildEnhanced w (some s) (some d)).cover_i = w.covers.bind List.head?)) ∧
    ((truthyNum s.first_publish_year = true →
        (buildEnhanced w (some s) (some d)).first_publish_year
          = s.first_publish_year.map .num) ∧
     (truthyNum s.first_publish_year = false →
        (buildEnhanced w (some s) (some d)).first_publish_year
          = w.first_publish_date.map .str)) ∧
    ((∀ ls, s.language = some ls →
        (buildEnhanced w (some s) (some d)).language = some ls) ∧
     (s.language = none → (buildEnhanced w (some s) (some d)).language = some [])) ∧
    ((∀ ps, s.publisher = some ps →
        (buildEnhanced w (some s) (some d)).publisher = some ps) ∧
     (s.publisher = none → (buildEnhanced w (some s) (some d)).publisher = some [])) ∧
    ((∀ is, s.isbn = some is →
        (buildEnhanced w (some s) (some d)).isbn = some is) ∧
     (s.isbn = none → (buildEnhanced w (some s) (some d)).isbn = some [])) ∧
    ((∀ sj, s.subject = some sj →
        (buildEnhanced w (some s) (some d)).subject = some sj) ∧
     (s.subject = none →
        (buildEnhanced w (some s) (some d)).subject = some (d.subjects.getD []))) ∧
    ((∀ v, d.description = some (.obj v) → v ≠ "" →
        (buildEnhanced w (some s) (some d)).description = some (.str v)) ∧
     (∀ sv, d.description = some (.str sv) → sv ≠ "" →
        (buildEnhanced w (some s) (some d)).description = some (.str sv)) ∧
     (d.description = none →
        (buildEnhanced w (some s) (some d)).description = w.description)) ∧
    ((truthyStr d.subtitle = true →
        (buildEnhanced w (some s) (some d)).subtitle = d.subtitle) ∧
     (truthyStr d.subtitle = false →
        (buildEnhanced w (some s) (some d)).subtitle = w.subtitle)) ∧
    ((truthyStr w.first_publish_date = true →
        (buildEnhanced w (some s) (some d)).first_publish_date
          = w.first_publish_date) ∧
     (truthyStr w.first_publish_date = false →
        (buildEnhanced w (some s) (some d)).first_publish_date
          = s.first_publish_date)) := by
  refine ⟨⟨?_, ?_⟩, ⟨?_, ?_⟩, ⟨?_, ?_⟩, ⟨?_, ?_⟩, ⟨?_, ?_⟩, ⟨?_, ?_⟩,
    ⟨?_, ?_, ?_⟩, ⟨?_, ?_⟩, ⟨?_, ?_⟩⟩
  · intro h
    simp [buildEnhanced, h]
  · intro h
    simp [buildEnhanced, h]
  · intro h
    simp [buildEnhanced, h]
  · intro h
    simp [buildEnhanced, h]
  · intro ls h
    simp [buildEnhanced, h]
  · intro h
    simp [buildEnhanced, h]
  · intro ps h
    simp [buildEnhanced, h]
  · intro h
    simp [buildEnhanced, h]
  · intro is h
    simp [buildEnhanced, h]
  · intro h
    simp [buildEnhanced, h]
  · intro sj h
    simp [buildEnhanced, h]
  · intro h
    simp [buildEnhanced, h]
  · intro v h hv
    simp [buildEnhanced, descPrecedence, h, hv]
  · intro sv h hv
    simp [buildEnhanced, descPrecedence, h, hv]
  · intro h
    simp [buildEnhanced, descPrecedence, h]
  · intro h
    simp [buildEnhanced, jsOrStr, h]
  · intro h
    simp [buildEnhanced, jsOrStr, h]
  · intro h
    simp [buildEnhanced, jsOrStr, h]
  · intro h
    simp [buildEnhanced, jsOrStr, h]

/-- Witness for C1 (amended): on fully populated concrete records the merge
takes the search-hit cover id, year and languages, but the bare-work
`first_publish_date`. -/
theorem c1_field_precedence_witness :
    (buildEnhanced wWork (some wHit) (some wDetail)).cover_i = some 5 ∧
    (buildEnhanced wWork (some wHit) (some wDetail)).first_publish_year
      = some (.num 1999) ∧
    (buildEnhanced wWork (some wHit) (some wDetail)).language = some ["eng"] ∧
    (buildEnhanced wWork (some wHit) (some wDetail)).first_publish_date
      = some "1998" := by
  have h := c1_field_precedence wWork wHit wDetail
  refine ⟨(h.1.1 (by decide)).trans rfl, (h.2.1.1 (by decide)).trans rfl,
    h.2.2.1.1 ["eng"] rfl, (h.2.2.2.2.2.2.2.2.1 (by decide)).trans rfl⟩

/-- Claim C2: `generateBookDescription` is a total `String`-valued function
(it never throws), and whenever the secondary-dataset lookup throws,
returns nothing, or returns a falsy string, the result is exactly the
deterministic rule-based fallback template. -/
theorem c2_description_fallback (g : Except Unit (Option String))
    (book : EnhancedBook)
    (h : g = .error () ∨ g = .ok none ∨ g = .ok (some "")) :
    generateBookDescription g book = getFallbackDescription book := by
  rcases h with h | h | h <;> subst h <;> simp [generateBookDescription]

/-- Witness for C2 at a concrete book and a failed dataset lookup. -/
theorem c2_description_fallback_witness :
    generateBookDescription (.ok none) cBook = getFallbackDescription cBook :=
  c2_description_fallback (.ok none) cBook (Or.inr (Or.inl rfl))

/-- Claim C3, counterexample.  The de-duplication key of `enhanceBookData`
is the lower-cased title without trimming, so a work `"A"` and a search hit
`"A "` both survive even though their normalized (lower-cased, trimmed)
titles are equal. -/
theorem c3_counterexample :
    ¬ List.Pairwise (fun a b : EnhancedBook => normTitle a.title ≠ normTitle b.title)
      (enhanceBookData noFetch [cWork] [cHit]) := by
  decide

/-- Claim C3 (amended): with the lower-cased (untrimmed) title as the key,
the merge output of `enhanceBookData` contains no two records with equal
keys: a search hit is appended only when its key was not already recorded,
and a later merge source never overwrites a recorded title. -/
theorem c3_merge_title_unique (f : String → Option DetailedWork)
    (works : List Work) (searchBooks : List SearchHit) :
    List.Pairwise (fun a b : EnhancedBook => jsLower a.title ≠ jsLower b.title)
      (enhanceBookData f works searchBooks) := by
  show List.Pairwise _ ((enhanceLoop f searchBooks works []).1 ++
    addLeftoverHits (enhanceLoop f searchBooks works []).2 searchBooks)
  refine (List.pairwise_append).2
    ⟨enhanceLoop_pairwise f searchBooks works [], addLeftoverHits_pairwise _ _, ?_⟩
  intro a ha b hb heq
  have h1 := (enhanceLoop_mem_key ha).1
  have h2 := addLeftoverHits_key_not_seen hb
  rw [heq] at h1
  exact h2 h1

/-- Claim C4: `filterBooks` output never contains two records with equal
normalized titles, and of two records whose titles differ only by case
exactly the first survives. -/
theorem c4_ingest_unique :
    (∀ books : List NavBook,
      List.Pairwise (fun a b => normTitle a.title ≠ normTitle b.title)
        (filterBooks books)) ∧
    filterBooks [cDup1, cDup2] = [cDup1] := by
  constructor
  · intro books
    have hperm := List.mergeSort_perm (dedupFilter (books.filter keepBook) []) bookLe
    have hsym : ∀ {x y : NavBook}, normTitle x.title ≠ normTitle y.title →
        normTitle y.title ≠ normTitle x.title := fun h e => h e.symm
    exact (hperm.pairwise_iff hsym).2 (dedupFilter_pairwise _ _)
  · show (dedupFilter ([cDup1, cDup2].filter keepBook) []).mergeSort bookLe = [cDup1]
    rw [show dedupFilter ([cDup1, cDup2].filter keepBook) [] = [cDup1] from by decide]
    exact List.mergeSort_singleton _

/-- Claim C5: every record surviving `filterBooks` has a non-null truthy
`first_publish_year`, a title longer than two characters, and a normalized
title containing none of the exclusion phrases. -/
theorem c5_kept_records (books : List NavBook) (b : NavBook)
    (h : b ∈ filterBooks books) :
    (∃ y, b.first_publish_year = some y ∧ y ≠ 0) ∧ 2 < b.title.length ∧
      ∀ term ∈ excludedTerms, jsIncludes (normTitle b.title) term = false := by
  have hmem : b ∈ dedupFilter (books.filter keepBook) [] :=
    ((List.mergeSort_perm _ bookLe).mem_iff).1 h
  obtain ⟨hin, hex⟩ := dedupFilter_mem hmem
  have hkeep := (List.mem_filter.1 hin).2
  simp only [keepBook, Bool.and_eq_true, bne_iff_ne, ne_eq] at hkeep
  obtain ⟨ht, hy⟩ := hkeep
  refine ⟨?_, ?_, ?_⟩
  · cases hyv : b.first_publish_year with
    | none => rw [hyv] at hy; simp [truthyNum] at hy
    | some y =>
      rw [hyv] at hy
      exact ⟨y, rfl, by simpa [truthyNum] using hy⟩
  · have hns : ¬ ((normTitle b.title).length ≤ 2) := by
      intro hle
      rw [isExcludedTitle] at hex
      simp [hle] at hex
    have := normTitle_length_le b.title
    omega
  · intro term htm
    rw [isExcludedTitle] at hex
    simp only [Bool.or_eq_false_iff, List.any_eq_false] at hex
    simpa using hex.1 term htm

/-- Witness for C5 at a concrete surviving record. -/
theorem c5_kept_records_witness :
    (∃ y, cDup1.first_publish_year = some y ∧ y ≠ 0) ∧ 2 < cDup1.title.length ∧
      ∀ term ∈ excludedTerms, jsIncludes (normTitle cDup1.title) term = false := by
  refine c5_kept_records [cDup1] cDup1 ?_
  have h : filterBooks [cDup1] = [cDup1] := by
    show (dedupFilter ([cDup1].filter keepBook) []).mergeSort bookLe = [cDup1]
    rw [show dedupFilter ([cDup1].filter keepBook) [] = [cDup1] from by decide]
    exact List.mergeSort_singleton _
  rw [h]
  exact List.mem_singleton_self _

/-- Claim C6: the `filterBooks` output is sorted: adjacent records have
strictly decreasing years, ties broken by lexicographically non-decreasing
titles. -/
theorem c6_sort_order (books : List NavBook) :
    List.Chain' (fun a b => yearVal b < yearVal a ∨
      (yearVal a = yearVal b ∧ a.title.data ≤ b.title.data))
      (filterBooks books) := by
  have hp := @List.sorted_mergeSort NavBook bookLe bookLe_trans bookLe_total
    (dedupFilter (books.filter keepBook) [])
  have hp2 : List.Pairwise (fun a b => yearVal b < yearVal a ∨
      (yearVal a = yearVal b ∧ a.title.data ≤ b.title.data)) (filterBooks books) := by
    refine hp.imp ?_
    intro a b hab
    simp only [bookLe, decide_eq_true_eq] at hab
    rcases hab with h | ⟨he, ht⟩
    · exact Or.inl h
    · exact Or.inr ⟨he.symm, ht⟩
  exact hp2.chain'

/-- Claim C7: for non-empty strings, `fuzzySearch` accepts on
case-insensitive substring containment, and otherwise accepts exactly when
the single left-to-right advance-until-match scan collects at least 0.7
hits per query character. -/
theorem c7_fuzzy_search (query text : String) (hq : query ≠ "") (ht : text ≠ "") :
    (containsSub (jsLowerL query.data) (jsLowerL text.data) = true →
      fuzzySearch query text = true) ∧
    (containsSub (jsLowerL query.data) (jsLowerL text.data) = false →
      (fuzzySearch query text = true ↔
        7 * query.length ≤ 10 * subseqHits (jsLowerL query.data) (jsLowerL text.data))) := by
  constructor
  · intro hc
    rw [fuzzySearch]
    rw [if_neg (by simp [hq, ht])]
    simp [hc]
  · intro hc
    rw [fuzzySearch]
    rw [if_neg (by simp [hq, ht])]
    have hlen : (jsLowerL query.data).length = query.length := by
      show (query.data.map Char.toLower).length = query.data.length
      simp
    simp [hc, hlen, fuzzyScan_eq_subseqHits]

/-- Witness for C7: a concrete substring hit. -/
theorem c7_fuzzy_search_witness : fuzzySearch "Harry" "harry potter" = true :=
  (c7_fuzzy_search "Harry" "harry potter" (by decide) (by decide)).1 (by decide)

/-- Claim C8: `categorizeGenre` sends `"Fantasy fiction"` to `"Fantasy"`
via the first matching key of the ordered table, and rejects
`"Juvenile fiction, grade 3"` via the exclusion keywords. -/
theorem c8_categorize_genre :
    categorizeGenre "Fantasy fiction" = some "Fantasy" ∧
    categorizeGenre "Juvenile fiction, grade 3" = none := by
  exact ⟨by decide, by decide⟩

/-- Claim C9: the fetch cascade of `fetchDetailedJKRowlingBooks`: when both
primary responses are ok but the enhancement throws, the raw search docs
are returned with their count as `total`; when the combined fetch fails,
the fallback search docs are returned with their count; when that fallback
also throws, the error propagates. -/
theorem c9_failure_cascade :
    (∀ (worksO : Option (List Work)) (docsO : Option (List SearchHit))
        (fb : FetchOutcome (Option (List SearchHit))),
      fetchDetailedJKRowlingBooks (.success true worksO) (.success true docsO)
          (.error ()) fb
        = .ok ⟨.raw (docsO.getD []), (docsO.getD []).length⟩) ∧
    (∀ (wf : FetchOutcome (Option (List Work)))
        (sf : FetchOutcome (Option (List SearchHit)))
        (eo : Except Unit (List EnhancedBook)) (b : Bool)
        (docsO : Option (List SearchHit)),
      combinedFetchOk wf sf = false →
      fetchDetailedJKRowlingBooks wf sf eo (.success b docsO)
        = .ok ⟨.raw (docsO.getD []), (docsO.getD []).length⟩) ∧
    (∀ (wf : FetchOutcome (Option (List Work)))
        (sf : FetchOutcome (Option (List SearchHit)))
        (eo : Except Unit (List EnhancedBook)),
      combinedFetchOk wf sf = false →
      fetchDetailedJKRowlingBooks wf sf eo .threw = .error ()) := by
  refine ⟨fun worksO docsO fb => rfl, ?_, ?_⟩
  · intro wf sf eo b docsO h
    cases wf with
    | threw => cases sf <;> rfl
    | success okw dataw =>
      cases okw with
      | false => cases sf <;> rfl
      | true =>
        cases sf with
        | threw => rfl
        | success oks datas =>
          cases oks with
          | false => rfl
          | true => simp [combinedFetchOk] at h
  · intro wf sf eo h
    cases wf with
    | threw => cases sf <;> rfl
    | success okw dataw =>
      cases okw with
      | false => cases sf <;> rfl
      | true =>
        cases sf with
        | threw => rfl
        | success oks datas =>
          cases oks with
          | false => rfl
          | true => simp [combinedFetchOk] at h

/-- Witness for C9: the three cascade stages at concrete outcomes. -/
theorem c9_failure_cascade_witness :
    fetchDetailedJKRowlingBooks (.success true (some [cWork]))
        (.success true (some [cHit])) (.error ()) .threw
      = .ok ⟨.raw [cHit], 1⟩ ∧
    fetchDetailedJKRowlingBooks .threw .threw (.ok []) (.success true (some [cHit]))
      = .ok ⟨.raw [cHit], 1⟩ ∧
    fetchDetailedJKRowlingBooks .threw .threw (.ok []) .threw = .error () := by
  refine ⟨?_, ?_, ?_⟩
  · exact c9_failure_cascade.1 (some [cWork]) (some [cHit]) .threw
  · exact c9_failure_cascade.2.1 .threw .threw (.ok []) true (some [cHit]) rfl
  · exact c9_failure_cascade.2.2 .threw .threw (.ok []) rfl

/-- Claim C10: `fuzzySearch` returns `false` whenever the query or the text
is empty, so the hit ratio is never evaluated against a zero-length query. -/
theorem c10_empty_guard (query text : String) (h : query = "" ∨ text = "") :
    fuzzySearch query text = false := by
  rcases h with h | h <;> subst h <;> simp [fuzzySearch]

/-- Witness for C10 at a concrete empty query. -/
theorem c10_empty_guard_witness : fuzzySearch "" "harry potter" = false :=
  c10_empty_guard "" "harry potter" (Or.inl rfl)

end AuthorPort
